import Mathlib

/-!
Verification of the mailproc rule-evaluation engine (src/lib.rs) against its
natural-language specification.

External collaborators (the `regex` crate, the `mailparse` crate, and the
`subprocess` crate) are modelled as an `Env` oracle record: a compiled regex
becomes its matching function, a parsed mail becomes a `MailView`, and
spawning a child process becomes a lookup in `Env.spawn` (returning `none`
when the spawn would fail).  The `.expect("Could not spawn child process")`
panic in `Job::run` is modelled as `Except.error`: every function that
(transitively) spawns a process lives in `Except String`.
-/

/-- Raw byte buffers (`Vec<u8>` / `&[u8]`). -/
abbrev Buffer := List Nat

/-- The parsed view of a message (`mailparse::ParsedMail`): an ordered list of
headers (name, value) plus the decoded body (`None` models `get_body()`
returning `Err`). -/
structure MailView where
  headers : List (String × String)
  body : Option String
deriving DecidableEq, Repr

/-- `get_headers().get_first_value(k)`: the value of the first header whose
name is `k`, per the mail parser's documented behaviour. -/
def MailView.getFirstValue (m : MailView) (k : String) : Option String :=
  (m.headers.find? (fun kv => kv.1 == k)).map (fun kv => kv.2)

/-- `get_body()`: decoded body text, or `none` on decode failure. -/
def MailView.getBody (m : MailView) : Option String :=
  m.body

/-- `subprocess::ExitStatus`. -/
inductive ExitStatus where
  | exited (code : Nat)
  | signaled (sig : Nat)
  | other (code : Int)
  | undetermined
deriving DecidableEq, Repr

/-- `ExitStatus::success()`: true exactly for a normal exit with code 0. -/
def ExitStatus.success : ExitStatus → Bool
  | .exited 0 => true
  | _ => false

/-- Outcome of a successfully spawned child process, as observed by the
caller: the exit status reported by `exit_status()` after `wait`, and the
result of `communicate_bytes` (`none` models `Err`, otherwise the captured
stdout/stderr buffers). -/
structure ProcResult where
  exitStatus : Option ExitStatus
  comm : Option (Option Buffer × Option Buffer)

/-- Oracle for everything outside src/lib.rs: process spawning (depending on
the command line and the optional stdin payload; `none` = spawn failure),
mail parsing, and regex compilation for text (`regex::Regex`) and bytes
(`regex::bytes::Regex`) patterns.  A compiled regex is modelled as its
`is_match` function. -/
structure Env where
  spawn : List String → Option Buffer → Option ProcResult
  parseMail : Buffer → Option MailView
  compile : String → Option (String → Bool)
  compileBytes : String → Option (Buffer → Bool)

/-- `Rule` (src/lib.rs): five optional fields.  A `headers` group (the Rust
`HashMap<String, String>`) is modelled as its list of (name, pattern)
entries; the AND-fold over a group is insensitive to entry order. -/
structure Rule where
  headers : Option (List (List (String × String)))
  body : Option (List (List String))
  raw : Option (List (List String))
  action : Option (List (List String))
  filter : Option (List String)

/-- `Config`: a version tag plus the ordered rule list. -/
structure Config where
  version : Nat
  rules : List Rule

/-- `Job`: the observable state of one finished process invocation. -/
structure Job where
  exitStatus : Option ExitStatus
  stdout : Option Buffer
  stderr : Option Buffer

/-- `Job::success`: `exit_status().map_or(false, |e| e.success())`. -/
def Job.success (j : Job) : Bool :=
  (j.exitStatus.map ExitStatus.success).getD false

/-- `Job::run`: spawn the command (the `.expect` panic on spawn failure is
the `Except.error` branch), then `communicate_bytes` fills stdout/stderr
only when it returns `Ok`. -/
def Jobrun (env : Env) (action : List String) (input : Option Buffer) :
    Except String Job :=
  match env.spawn action input with
  | none => .error "Could not spawn child process"
  | some p =>
    match p.comm with
    | some (out, err) => .ok { exitStatus := p.exitStatus, stdout := out, stderr := err }
    | none => .ok { exitStatus := p.exitStatus, stdout := none, stderr := none }

/-- `Job::found`: run `which program` and report success. -/
def Jobfound (env : Env) (program : String) : Except String Bool :=
  (Jobrun env ["which", program] none).map Job.success

/-- The transient `Match` struct: one boolean per message part. -/
structure MatchS where
  headers : Bool
  body : Bool
  raw : Bool

/-- `Match::matched`: AND of the three parts. -/
def MatchS.matched (m : MatchS) : Bool :=
  m.headers && m.body && m.raw

/-- One (header name, pattern) pair of a headers group: compile the pattern
as a text regex (compile failure contributes false) and test it against the
first value of that header (absent header contributes false). -/
def headerPairTest (env : Env) (parsed : MailView) (k v : String) : Bool :=
  match env.compile v with
  | none => false
  | some re =>
    match parsed.getFirstValue k with
    | some h => re h
    | none => false

/-- The `doaction` AND-fold over one headers group. -/
def headerSetMatch (env : Env) (parsed : MailView) (hs : List (String × String)) : Bool :=
  hs.foldl (fun doaction kv => doaction && headerPairTest env parsed kv.1 kv.2) true

/-- The headers part of the `Match`: initialised to `is_none()`, then OR-ed
with each group's verdict. -/
def headersMatch (env : Env) (parsed : MailView)
    (hdrs : Option (List (List (String × String)))) : Bool :=
  match hdrs with
  | none => true
  | some hv => hv.foldl (fun mm hs => mm || headerSetMatch env parsed hs) false

/-- One pattern of a body group, tested against the decoded body (decode
failure or compile failure contributes false). -/
def bodyPairTest (env : Env) (parsed : MailView) (pat : String) : Bool :=
  match env.compile pat with
  | none => false
  | some re =>
    match parsed.getBody with
    | some b => re b
    | none => false

/-- The `doaction` AND-fold over one body group. -/
def bodySetMatch (env : Env) (parsed : MailView) (bs : List String) : Bool :=
  bs.foldl (fun doaction pat => doaction && bodyPairTest env parsed pat) true

/-- The body part of the `Match`. -/
def bodyMatch (env : Env) (parsed : MailView) (body : Option (List (List String))) : Bool :=
  match body with
  | none => true
  | some bv => bv.foldl (fun mm bs => mm || bodySetMatch env parsed bs) false

/-- One pattern of a raw group, compiled as a byte regex and tested against
the effective raw buffer. -/
def rawPairTest (env : Env) (buffer : Buffer) (pat : String) : Bool :=
  match env.compileBytes pat with
  | none => false
  | some re => re buffer

/-- The `doaction` AND-fold over one raw group. -/
def rawSetMatch (env : Env) (buffer : Buffer) (rs : List String) : Bool :=
  rs.foldl (fun doaction pat => doaction && rawPairTest env buffer pat) true

/-- The raw part of the `Match`. -/
def rawMatch (env : Env) (buffer : Buffer) (raw : Option (List (List String))) : Bool :=
  match raw with
  | none => true
  | some rv => rv.foldl (fun mm rs => mm || rawSetMatch env buffer rs) false

/-- The full `Match` computed for one rule against the effective (possibly
filtered) view and buffer — lines 297–361 of src/lib.rs. -/
def mailMatch (env : Env) (rule : Rule) (parsed : MailView) (buffer : Buffer) : MatchS :=
  { headers := headersMatch env parsed rule.headers
    body := bodyMatch env parsed rule.body
    raw := rawMatch env buffer rule.raw }

/-- Generic fact: an OR-accumulating fold is the OR of the seed with `any`. -/
theorem foldl_or_eq {α : Type} (f : α → Bool) :
    ∀ (l : List α) (b : Bool), l.foldl (fun acc x => acc || f x) b = (b || l.any f) := by
  intro l
  induction l with
  | nil => intro b; simp
  | cons x xs ih =>
    intro b
    simp [List.foldl_cons, ih, Bool.or_assoc]

/-- Generic fact: an AND-accumulating fold is the AND of the seed with `all`. -/
theorem foldl_and_eq {α : Type} (f : α → Bool) :
    ∀ (l : List α) (b : Bool), l.foldl (fun acc x => acc && f x) b = (b && l.all f) := by
  intro l
  induction l with
  | nil => intro b; simp
  | cons x xs ih =>
    intro b
    simp [List.foldl_cons, ih, Bool.and_assoc]

theorem headerSetMatch_eq_all (env : Env) (parsed : MailView) (hs : List (String × String)) :
    headerSetMatch env parsed hs = hs.all (fun kv => headerPairTest env parsed kv.1 kv.2) := by
  simp [headerSetMatch, foldl_and_eq]

theorem headersMatch_some_eq_any (env : Env) (parsed : MailView)
    (hv : List (List (String × String))) :
    headersMatch env parsed (some hv) = hv.any (fun hs => headerSetMatch env parsed hs) := by
  simp [headersMatch, foldl_or_eq]

theorem bodySetMatch_eq_all (env : Env) (parsed : MailView) (bs : List String) :
    bodySetMatch env parsed bs = bs.all (fun pat => bodyPairTest env parsed pat) := by
  simp [bodySetMatch, foldl_and_eq]

theorem bodyMatch_some_eq_any (env : Env) (parsed : MailView) (bv : List (List String)) :
    bodyMatch env parsed (some bv) = bv.any (fun bs => bodySetMatch env parsed bs) := by
  simp [bodyMatch, foldl_or_eq]

theorem rawSetMatch_eq_all (env : Env) (buffer : Buffer) (rs : List String) :
    rawSetMatch env buffer rs = rs.all (fun pat => rawPairTest env buffer pat) := by
  simp [rawSetMatch, foldl_and_eq]

theorem rawMatch_some_eq_any (env : Env) (buffer : Buffer) (rv : List (List String)) :
    rawMatch env buffer (some rv) = rv.any (fun rs => rawSetMatch env buffer rs) := by
  simp [rawMatch, foldl_or_eq]

/-- The per-rule filter pipeline — lines 253–292 of src/lib.rs.  With no
filter the original (view, buffer) pair is kept.  With a filter, `Job::run`
is invoked (its spawn-failure panic propagates as `.error`); the filter's
stdout is taken only when the job succeeded, parsed only when taken, and the
filtered pair replaces the original only when both buffer and parse are
available. -/
def runFilter (env : Env) (rule : Rule) (parsedMail : MailView) (inputBuf : Buffer) :
    Except String (MailView × Buffer) :=
  match rule.filter with
  | none => .ok (parsedMail, inputBuf)
  | some filter =>
    match Jobrun env filter (some inputBuf) with
    | .error e => .error e
    | .ok job =>
      let filterBuffer : Option Buffer := if job.success then job.stdout else none
      let filterParsed : Option MailView :=
        match filterBuffer with
        | some filtered => env.parseMail filtered
        | none => none
      match filterBuffer, filterParsed with
      | some b, some p => .ok (p, b)
      | _, _ => .ok (parsedMail, inputBuf)

/-- The rule loop of `handle` — lines 251–368 of src/lib.rs — instrumented
with ghost data: rules carry their position `i`, the returned match carries
the position of the matching rule, and the second component is the trace of
positions whose filter command was actually invoked (`Job::run` called),
in execution order. -/
def handleAux (env : Env) (parsedMail : MailView) (inputBuf : Buffer) :
    Nat → List Rule → Except String (Option (Nat × Rule × Buffer) × List Nat)
  | _, [] => .ok (none, [])
  | i, rule :: rest =>
    let tr : List Nat := if rule.filter.isSome then [i] else []
    match runFilter env rule parsedMail inputBuf with
    | .error e => .error e
    | .ok (parsed, buffer) =>
      if (mailMatch env rule parsed buffer).matched then
        .ok (some (i, rule, buffer), tr)
      else
        match handleAux env parsedMail inputBuf (i + 1) rest with
        | .error e => .error e
        | .ok (res, tr2) => .ok (res, tr ++ tr2)

/-- `handle`: the engine entry point — returns the first matching rule plus
the effective buffer, dropping the ghost instrumentation. -/
def handle (env : Env) (parsedMail : MailView) (inputBuf : Buffer) (config : Config) :
    Except String (Option (Rule × Buffer)) :=
  match handleAux env parsedMail inputBuf 0 config.rules with
  | .error e => .error e
  | .ok (res, _) => .ok (res.map (fun irb => (irb.2.1, irb.2.2)))

/-- A rule matches the message: its filter pipeline completes and the
`Match` computed against the effective pair is true. -/
def Matches (env : Env) (parsedMail : MailView) (inputBuf : Buffer) (r : Rule) : Prop :=
  ∃ p b, runFilter env r parsedMail inputBuf = .ok (p, b) ∧
    (mailMatch env r p b).matched = true

/-- The filter pipeline and matcher are functions of the rule and message,
so a rule whose effective evaluation came out false does not match. -/
theorem not_matches_of_eval_false (env : Env) (parsedMail : MailView) (inputBuf : Buffer)
    (r : Rule) (p : MailView) (b : Buffer)
    (hrf : runFilter env r parsedMail inputBuf = .ok (p, b))
    (hm : (mailMatch env r p b).matched = false) :
    ¬ Matches env parsedMail inputBuf r := by
  rintro ⟨p2, b2, hrf2, hm2⟩
  rw [hrf] at hrf2
  have hp : p = p2 ∧ b = b2 := by
    simpa using hrf2
  rcases hp with ⟨hp1, hp2⟩
  rw [← hp1, ← hp2] at hm2
  rw [hm] at hm2
  exact Bool.false_ne_true hm2

/-- Soundness and first-match character of the rule loop, plus the trace
bound: when the loop returns a match at position `k`, that rule sits at
offset `k - i`, it matches, no rule at a smaller offset matches, and every
filter invoked so far belongs to a position at most `k`. -/
theorem handleAux_some_spec (env : Env) (parsedMail : MailView) (inputBuf : Buffer) :
    ∀ (rules : List Rule) (i k : Nat) (r : Rule) (b : Buffer) (tr : List Nat),
      handleAux env parsedMail inputBuf i rules = .ok (some (k, r, b), tr) →
      i ≤ k ∧ rules.get? (k - i) = some r ∧
      (∃ p, runFilter env r parsedMail inputBuf = .ok (p, b) ∧
        (mailMatch env r p b).matched = true) ∧
      (∀ d rd, d < k - i → rules.get? d = some rd →
        ¬ Matches env parsedMail inputBuf rd) ∧
      (∀ t ∈ tr, t ≤ k) := by
  intro rules
  induction rules with
  | nil =>
    intro i k r b tr h
    simp [handleAux] at h
  | cons rule rest ih =>
    intro i k r b tr h
    rw [handleAux] at h
    rcases hrf : runFilter env rule parsedMail inputBuf with e | pb
    · rw [hrf] at h
      simp at h
    · rcases pb with ⟨p, bb⟩
      rw [hrf] at h
      dsimp only at h
      rcases hm : (mailMatch env rule p bb).matched with _ | _
      · rw [hm] at h
        simp only [Bool.false_eq_true, if_false] at h
        rcases hrec : handleAux env parsedMail inputBuf (i + 1) rest with e | rt
        · rw [hrec] at h
          simp at h
        · rcases rt with ⟨res, tr2⟩
          rw [hrec] at h
          simp only [Except.ok.injEq, Prod.mk.injEq] at h
          rcases h with ⟨hres, htr⟩
          rcases ih (i + 1) k r b tr2 (by rw [hrec, hres]) with
            ⟨hik, hget, heval, hfirst, htr2⟩
          have hik2 : i ≤ k := by omega
          refine ⟨hik2, ?_, heval, ?_, ?_⟩
          · have hki : k - i = (k - (i + 1)) + 1 := by omega
            rw [hki]
            simpa using hget
          · intro d rd hd hgd
            cases d with
            | zero =>
              have hrule : rule = rd := by simpa using hgd
              rw [← hrule]
              exact not_matches_of_eval_false env parsedMail inputBuf rule p bb hrf hm
            | succ d2 =>
              have hd2 : d2 < k - (i + 1) := by omega
              exact hfirst d2 rd hd2 (by simpa using hgd)
          · intro t ht
            rw [← htr] at ht
            rcases List.mem_append.mp ht with h1 | h2
            · rcases hfil : rule.filter with _ | f
              · rw [hfil] at h1
                simp at h1
              · rw [hfil] at h1
                simp at h1
                omega
            · exact htr2 t h2
      · rw [hm] at h
        simp only [if_true, Except.ok.injEq, Prod.mk.injEq, Option.some.injEq] at h
        rcases h with ⟨⟨hk, hr, hb⟩, htr⟩
        refine ⟨by omega, ?_, ?_, ?_, ?_⟩
        · have : k - i = 0 := by omega
          rw [this, ← hr]
          simp
        · exact ⟨p, by rw [← hr, ← hb]; exact hrf, by rw [← hr, ← hb]; exact hm⟩
        · intro d rd hd
          omega
        · intro t ht
          rw [← htr] at ht
          rcases hfil : rule.filter with _ | f
          · rw [hfil] at ht
            simp at ht
          · rw [hfil] at ht
            simp at ht
            omega

/-- Completeness of the rule loop: a no-match return means no rule in the
list matches. -/
theorem handleAux_none_spec (env : Env) (parsedMail : MailView) (inputBuf : Buffer) :
    ∀ (rules : List Rule) (i : Nat) (tr : List Nat),
      handleAux env parsedMail inputBuf i rules = .ok (none, tr) →
      ∀ r ∈ rules, ¬ Matches env parsedMail inputBuf r := by
  intro rules
  induction rules with
  | nil =>
    intro i tr h r hr
    simp at hr
  | cons rule rest ih =>
    intro i tr h r hr
    rw [handleAux] at h
    rcases hrf : runFilter env rule parsedMail inputBuf with e | pb
    · rw [hrf] at h
      simp at h
    · rcases pb with ⟨p, bb⟩
      rw [hrf] at h
      dsimp only at h
      rcases hm : (mailMatch env rule p bb).matched with _ | _
      · rw [hm] at h
        simp only [Bool.false_eq_true, if_false] at h
        rcases hrec : handleAux env parsedMail inputBuf (i + 1) rest with e | rt
        · rw [hrec] at h
          simp at h
        · rcases rt with ⟨res, tr2⟩
          rw [hrec] at h
          simp only [Except.ok.injEq, Prod.mk.injEq] at h
          rcases h with ⟨hres, htr⟩
          rcases List.mem_cons.mp hr with h1 | h2
          · rw [h1]
            exact not_matches_of_eval_false env parsedMail inputBuf rule p bb hrf hm
          · exact ih (i + 1) tr2 (by rw [hrec, hres]) r h2
      · rw [hm] at h
        simp at h

/-- Environment for concrete evaluations: every spawn succeeds with exit
code 0 and empty captured output, no buffer parses, no regex compiles. -/
def wEnv : Env :=
  { spawn := fun _ _ => some { exitStatus := some (.exited 0), comm := some (some [], some []) }
    parseMail := fun _ => none
    compile := fun _ => none
    compileBytes := fun _ => none }

/-- A sample parsed message. -/
def wView : MailView :=
  { headers := [("From", "alice")], body := some "hello" }

/-- A rule with every field absent. -/
def wRuleAll : Rule :=
  { headers := none, body := none, raw := none, action := none, filter := none }

/-- A config with two rules that both match every message. -/
def wCfg : Config :=
  { version := 1, rules := [wRuleAll, wRuleAll] }

/-- C1: first-match wins.  If the rules at positions `i < j` both match the
message, the rule loop (run without a spawn panic) returns a match at some
position `k ≤ i` — a matching rule no later than the earlier of the two —
`handle` hands that rule and its effective buffer to the caller, and the
filter of the later rule `j` was never invoked (its position is not in the
trace of executed filters). -/
theorem first_match_wins (env : Env) (parsedMail : MailView) (inputBuf : Buffer)
    (cfg : Config) (i j : Nat) (ri rj : Rule)
    (hij : i < j)
    (hi : cfg.rules.get? i = some ri) (hj : cfg.rules.get? j = some rj)
    (hmi : Matches env parsedMail inputBuf ri) (hmj : Matches env parsedMail inputBuf rj)
    (res : Option (Nat × Rule × Buffer)) (tr : List Nat)
    (hok : handleAux env parsedMail inputBuf 0 cfg.rules = .ok (res, tr)) :
    ∃ k rk b, res = some (k, rk, b) ∧ k ≤ i ∧ cfg.rules.get? k = some rk ∧
      Matches env parsedMail inputBuf rk ∧
      handle env parsedMail inputBuf cfg = .ok (some (rk, b)) ∧
      j ∉ tr := by
  rcases res with _ | kb
  · exfalso
    have hall := handleAux_none_spec env parsedMail inputBuf cfg.rules 0 tr hok
    have hmem : ri ∈ cfg.rules := List.get?_mem hi
    exact hall ri hmem hmi
  · rcases kb with ⟨k, rk, b⟩
    rcases handleAux_some_spec env parsedMail inputBuf cfg.rules 0 k rk b tr hok with
      ⟨_, hget, heval, hfirst, htrb⟩
    have hki : k ≤ i := by
      by_contra hc
      push_neg at hc
      have : ¬ Matches env parsedMail inputBuf ri := by
        refine hfirst i ri (by omega) ?_
        simpa using hi
      exact this hmi
    refine ⟨k, rk, b, rfl, hki, by simpa using hget, ?_, ?_, ?_⟩
    · rcases heval with ⟨p, h1, h2⟩
      exact ⟨p, b, h1, h2⟩
    · rw [handle, hok]
      rfl
    · intro hjt
      have := htrb j hjt
      omega

/-- Witness for C1 at a concrete config with two unconditionally matching
rules: the engine returns the first one. -/
theorem first_match_wins_witness :
    handle wEnv wView [7] wCfg = .ok (some (wRuleAll, ([7] : Buffer))) := by
  rcases first_match_wins wEnv wView [7] wCfg 0 1 wRuleAll wRuleAll
      (by omega) rfl rfl
      ⟨wView, [7], rfl, rfl⟩ ⟨wView, [7], rfl, rfl⟩
      (some (0, wRuleAll, [7])) [] rfl with ⟨k, rk, b, heq, _, _, _, hh, _⟩
  have hk : (0 : Nat) = k ∧ wRuleAll = rk ∧ ([7] : Buffer) = b := by
    simpa using heq
  rcases hk with ⟨_, h2, h3⟩
  rw [← h2, ← h3] at hh
  exact hh

/-- C2: absent predicate fields are vacuously true.  The overall match is
the AND of the three parts; each part is true when its rule field is
absent; a rule with all three fields absent matches every message. -/
theorem match_is_and_of_parts (env : Env) (rule : Rule) (parsed : MailView) (buf : Buffer) :
    ((mailMatch env rule parsed buf).matched =
      ((mailMatch env rule parsed buf).headers && (mailMatch env rule parsed buf).body &&
        (mailMatch env rule parsed buf).raw)) ∧
    (rule.headers = none → (mailMatch env rule parsed buf).headers = true) ∧
    (rule.body = none → (mailMatch env rule parsed buf).body = true) ∧
    (rule.raw = none → (mailMatch env rule parsed buf).raw = true) ∧
    (rule.headers = none → rule.body = none → rule.raw = none →
      (mailMatch env rule parsed buf).matched = true) := by
  refine ⟨rfl, ?_, ?_, ?_, ?_⟩
  · intro h
    simp [mailMatch, headersMatch, h]
  · intro h
    simp [mailMatch, bodyMatch, h]
  · intro h
    simp [mailMatch, rawMatch, h]
  · intro h1 h2 h3
    simp [mailMatch, MatchS.matched, headersMatch, bodyMatch, rawMatch, h1, h2, h3]

/-- Witness for C2: the all-absent rule matches a concrete message. -/
theorem match_is_and_of_parts_witness :
    (mailMatch wEnv wRuleAll wView [7]).matched = true :=
  (match_is_and_of_parts wEnv wRuleAll wView [7]).2.2.2.2 rfl rfl rfl

/-- C3: OR-of-AND predicate semantics.  For a configured field, the part is
true exactly when some group has all of its pattern tests true — for
headers, body and raw alike. -/
theorem or_of_and_semantics (env : Env) (parsed : MailView) (buffer : Buffer)
    (hv : List (List (String × String))) (bv rv : List (List String)) :
    (headersMatch env parsed (some hv) = true ↔
      ∃ hs ∈ hv, ∀ kv ∈ hs, headerPairTest env parsed kv.1 kv.2 = true) ∧
    (bodyMatch env parsed (some bv) = true ↔
      ∃ bs ∈ bv, ∀ pat ∈ bs, bodyPairTest env parsed pat = true) ∧
    (rawMatch env buffer (some rv) = true ↔
      ∃ rs ∈ rv, ∀ pat ∈ rs, rawPairTest env buffer pat = true) := by
  refine ⟨?_, ?_, ?_⟩
  · rw [headersMatch_some_eq_any]
    simp [headerSetMatch_eq_all, List.any_eq_true, List.all_eq_true]
  · rw [bodyMatch_some_eq_any]
    simp [bodySetMatch_eq_all, List.any_eq_true, List.all_eq_true]
  · rw [rawMatch_some_eq_any]
    simp [rawSetMatch_eq_all, List.any_eq_true, List.all_eq_true]

/-- C10: an empty group inside a configured headers, body or raw field makes
that whole part true, for every message (in particular even when the body
does not decode: the inner AND-loop never runs). -/
theorem empty_group_vacuous (env : Env) (parsed : MailView) (buf : Buffer)
    (hpre hpost : List (List (String × String))) (bpre bpost rpre rpost : List (List String)) :
    headersMatch env parsed (some (hpre ++ [] :: hpost)) = true ∧
    bodyMatch env parsed (some (bpre ++ [] :: bpost)) = true ∧
    rawMatch env buf (some (rpre ++ [] :: rpost)) = true := by
  refine ⟨?_, ?_, ?_⟩
  · rw [headersMatch_some_eq_any]
    simp [headerSetMatch]
  · rw [bodyMatch_some_eq_any]
    simp [bodySetMatch]
  · rw [rawMatch_some_eq_any]
    simp [rawSetMatch]

/-- C4 (amended): the filter pipeline uses the filtered (view, buffer) pair
exactly when the invocation succeeds, an output buffer was captured, and
that output parses into a valid view; on a failed invocation, an uncaptured
output, or a parse failure it falls back to the original pair, and a rule
with no filter always keeps the original pair.  (No emptiness test: a
captured empty buffer that parses still replaces the message.) -/
theorem filter_pipeline_fallback (env : Env) (rule : Rule) (view : MailView) (buf : Buffer) :
    (rule.filter = none → runFilter env rule view buf = .ok (view, buf)) ∧
    (∀ cmd job, rule.filter = some cmd → Jobrun env cmd (some buf) = .ok job →
      ((∀ fb m, job.success = true → job.stdout = some fb → env.parseMail fb = some m →
          runFilter env rule view buf = .ok (m, fb)) ∧
        (job.success = false → runFilter env rule view buf = .ok (view, buf)) ∧
        (job.stdout = none → runFilter env rule view buf = .ok (view, buf)) ∧
        (∀ fb, job.success = true → job.stdout = some fb → env.parseMail fb = none →
          runFilter env rule view buf = .ok (view, buf)))) := by
  constructor
  · intro h
    simp [runFilter, h]
  · intro cmd job hf hj
    refine ⟨?_, ?_, ?_, ?_⟩
    · intro fb m hs hout hp
      simp [runFilter, hf, hj, hs, hout, hp]
    · intro hs
      simp [runFilter, hf, hj, hs]
    · intro hout
      cases hs : job.success
      · simp [runFilter, hf, hj, hs]
      · simp [runFilter, hf, hj, hs, hout]
    · intro fb hs hout hp
      simp [runFilter, hf, hj, hs, hout, hp]

/-- The view produced by the counterexample parser. -/
def cFView : MailView :=
  { headers := [("X", "filtered")], body := none }

/-- A rule whose only content is a filter command. -/
def cRuleFilter : Rule :=
  { headers := none, body := none, raw := none, action := none, filter := some ["f"] }

/-- Environment where every process succeeds with EMPTY captured stdout and
the parser accepts every buffer, the empty one included (as the real
`mailparse::parse_mail` does). -/
def cEnvEmpty : Env :=
  { spawn := fun _ _ => some { exitStatus := some (.exited 0), comm := some (some [], some []) }
    parseMail := fun _ => some cFView
    compile := fun _ => none
    compileBytes := fun _ => none }

/-- Counterexample to C4 as stated: the filter invocation succeeds but its
captured output buffer is EMPTY; the claim demands a fallback to the
original pair, yet the engine replaces the message with the parsed empty
output — the returned pair is the filtered one, not the original. -/
theorem filter_nonempty_cex :
    (Jobrun cEnvEmpty ["f"] (some [1])).map Job.success = .ok true ∧
    (Jobrun cEnvEmpty ["f"] (some [1])).map Job.stdout = .ok (some []) ∧
    runFilter cEnvEmpty cRuleFilter wView [1] = .ok (cFView, []) ∧
    cFView ≠ wView ∧ ([] : Buffer) ≠ [1] := by
  refine ⟨rfl, rfl, rfl, ?_, ?_⟩
  · decide
  · decide

/-- Environment where every process fails with exit code 1 (stdout still
captured). -/
def cEnvFail : Env :=
  { spawn := fun _ _ => some { exitStatus := some (.exited 1), comm := some (some [2], some []) }
    parseMail := fun _ => some cFView
    compile := fun _ => none
    compileBytes := fun _ => none }

/-- Witness for C4 (amended): a failed filter invocation falls back to the
original (view, buffer) pair. -/
theorem filter_pipeline_fallback_witness :
    runFilter cEnvFail cRuleFilter wView [1] = .ok (wView, [1]) :=
  ((filter_pipeline_fallback cEnvFail cRuleFilter wView [1]).2 ["f"]
    { exitStatus := some (.exited 1), stdout := some [2], stderr := some [] }
    rfl rfl).2.1 rfl

/-- C5: a process-spawn failure in `Job::run` is observable by the caller as
an explicit failure signal (the propagated panic, modelled as the error
branch) and is never a silent non-match: no `Job` value is returned at
all. -/
theorem spawn_failure_observable (env : Env) (action : List String) (input : Option Buffer)
    (h : env.spawn action input = none) :
    Jobrun env action input = .error "Could not spawn child process" ∧
    ∀ job, Jobrun env action input ≠ .ok job := by
  have h1 : Jobrun env action input = .error "Could not spawn child process" := by
    simp [Jobrun, h]
  refine ⟨h1, ?_⟩
  intro job hj
  rw [h1] at hj
  exact Except.noConfusion hj

/-- Environment in which no process can be spawned. -/
def cEnvNoSpawn : Env :=
  { spawn := fun _ _ => none
    parseMail := fun _ => none
    compile := fun _ => none
    compileBytes := fun _ => none }

/-- Witness for C5 at a concrete failing spawn. -/
theorem spawn_failure_observable_witness :
    Jobrun cEnvNoSpawn ["prog"] none = .error "Could not spawn child process" :=
  (spawn_failure_observable cEnvNoSpawn ["prog"] none rfl).1

/-- C6: a match-time regex compile failure is local.  A group containing a
pattern that fails to compile evaluates to false (so it never OR-contributes
true to its part), and the part's verdict is exactly the verdict with that
group removed — the remaining groups are still evaluated normally.  This
holds for headers, body and raw groups alike. -/
theorem compile_failure_local (env : Env) (parsed : MailView) (buf : Buffer) :
    (∀ k v hs, (k, v) ∈ hs → env.compile v = none →
      headerSetMatch env parsed hs = false ∧
      ∀ pre post, headersMatch env parsed (some (pre ++ hs :: post)) =
        headersMatch env parsed (some (pre ++ post))) ∧
    (∀ pat bs, pat ∈ bs → env.compile pat = none →
      bodySetMatch env parsed bs = false ∧
      ∀ pre post, bodyMatch env parsed (some (pre ++ bs :: post)) =
        bodyMatch env parsed (some (pre ++ post))) ∧
    (∀ pat rs, pat ∈ rs → env.compileBytes pat = none →
      rawSetMatch env buf rs = false ∧
      ∀ pre post, rawMatch env buf (some (pre ++ rs :: post)) =
        rawMatch env buf (some (pre ++ post))) := by
  refine ⟨?_, ?_, ?_⟩
  · intro k v hs hmem hc
    have hfail : headerSetMatch env parsed hs = false := by
      rw [headerSetMatch_eq_all]
      rw [List.all_eq_false]
      exact ⟨(k, v), hmem, by simp [headerPairTest, hc]⟩
    refine ⟨hfail, ?_⟩
    intro pre post
    rw [headersMatch_some_eq_any, headersMatch_some_eq_any]
    simp [List.any_append, hfail]
  · intro pat bs hmem hc
    have hfail : bodySetMatch env parsed bs = false := by
      rw [bodySetMatch_eq_all]
      rw [List.all_eq_false]
      exact ⟨pat, hmem, by simp [bodyPairTest, hc]⟩
    refine ⟨hfail, ?_⟩
    intro pre post
    rw [bodyMatch_some_eq_any, bodyMatch_some_eq_any]
    simp [List.any_append, hfail]
  · intro pat rs hmem hc
    have hfail : rawSetMatch env buf rs = false := by
      rw [rawSetMatch_eq_all]
      rw [List.all_eq_false]
      exact ⟨pat, hmem, by simp [rawPairTest, hc]⟩
    refine ⟨hfail, ?_⟩
    intro pre post
    rw [rawMatch_some_eq_any, rawMatch_some_eq_any]
    simp [List.any_append, hfail]

/-- Witness for C6: a group whose single pattern fails to compile is false,
and the headers part ignores such a group. -/
theorem compile_failure_local_witness :
    headerSetMatch wEnv wView [("k", "(")] = false ∧
    headersMatch wEnv wView (some ([] ++ [("k", "(")] :: [])) =
      headersMatch wEnv wView (some ([] ++ [])) := by
  have h := (compile_failure_local wEnv wView [7]).1 "k" "(" [("k", "(")]
    (by simp) rfl
  exact ⟨h.1, h.2 [] []⟩

/-- C8: a header-predicate pair whose header is absent from the view fails
unconditionally (and with it its group); when the header is present and the
pattern compiles, the pair is exactly the regex test on the FIRST value of
that header name — a view whose header list starts with (k, h1) yields h1
regardless of later occurrences of k. -/
theorem absent_header_pair_fails (env : Env) (parsed : MailView) (k v : String) :
    (parsed.getFirstValue k = none → headerPairTest env parsed k v = false) ∧
    (∀ re, env.compile v = some re → ∀ h, parsed.getFirstValue k = some h →
      headerPairTest env parsed k v = re h) ∧
    (∀ h1 tl b, (MailView.mk ((k, h1) :: tl) b).getFirstValue k = some h1) ∧
    (∀ hs, (k, v) ∈ hs → parsed.getFirstValue k = none →
      headerSetMatch env parsed hs = false) := by
  refine ⟨?_, ?_, ?_, ?_⟩
  · intro habs
    cases hc : env.compile v
    · simp [headerPairTest, hc]
    · simp [headerPairTest, hc, habs]
  · intro re hre h hval
    simp [headerPairTest, hre, hval]
  · intro h1 tl b
    simp [MailView.getFirstValue]
  · intro hs hmem habs
    rw [headerSetMatch_eq_all]
    rw [List.all_eq_false]
    refine ⟨(k, v), hmem, ?_⟩
    cases hc : env.compile v
    · simp [headerPairTest, hc]
    · simp [headerPairTest, hc, habs]

/-- Environment where every pattern compiles (to an always-true matcher). -/
def cEnvRe : Env :=
  { spawn := fun _ _ => some { exitStatus := some (.exited 0), comm := some (some [], some []) }
    parseMail := fun _ => none
    compile := fun _ => some (fun _ => true)
    compileBytes := fun _ => some (fun _ => true) }

/-- Witness for C8: the pattern compiles, yet the pair on an absent header
fails, and the pair on a present header tests the first value. -/
theorem absent_header_pair_fails_witness :
    headerPairTest cEnvRe wView "To" "x" = false ∧
    (MailView.mk [("From", "a"), ("From", "b")] none).getFirstValue "From" = some "a" := by
  constructor
  · exact (absent_header_pair_fails cEnvRe wView "To" "x").1 rfl
  · exact (absent_header_pair_fails cEnvRe wView "From" "x").2.2.1 "a" [("From", "b")] none

/-- One failure report, mirroring the distinct `println!` sites of
`Config::test` (lines 137–235 of src/lib.rs). -/
inductive Report where
  | notFound (program : String)
  | emptyActionRule
  | emptyFilterRule
  | emptyHeadersOuter
  | emptyHeadersInner
  | emptyBodyOuter
  | emptyBodyInner
  | emptyRawOuter
  | emptyRawInner
  | badRegex (pat : String)
deriving DecidableEq, Repr

/-- Validator state: the accumulated `success` boolean plus the log of
reports printed so far. -/
abbrev VState := Bool × List Report

/-- One action command check: non-empty (else report) and its program name
resolvable via the which-probe (whose spawn panic propagates). -/
def testAction (env : Env) (s : VState) (action : List String) : Except String VState :=
  match action with
  | prog :: _ =>
    match Jobfound env prog with
    | .error e => .error e
    | .ok found => .ok (s.1 && found, s.2 ++ (if found then [] else [.notFound prog]))
  | [] => .ok (s.1 && false, s.2 ++ [.emptyActionRule])

/-- The loop over a rule's action commands. -/
def testActions (env : Env) : VState → List (List String) → Except String VState
  | s, [] => .ok s
  | s, action :: rest =>
    match testAction env s action with
    | .error e => .error e
    | .ok s2 => testActions env s2 rest

/-- The optional action field of a rule. -/
def testActionsOpt (env : Env) (s : VState) : Option (List (List String)) →
    Except String VState
  | none => .ok s
  | some actions => testActions env s actions

/-- The optional filter command check. -/
def testFilter (env : Env) (s : VState) : Option (List String) → Except String VState
  | none => .ok s
  | some filter =>
    match filter with
    | prog :: _ =>
      match Jobfound env prog with
      | .error e => .error e
      | .ok found => .ok (s.1 && found, s.2 ++ (if found then [] else [.notFound prog]))
    | [] => .ok (s.1 && false, s.2 ++ [.emptyFilterRule])

/-- The inner loop compiling every pattern of one group. -/
def checkPatterns (env : Env) : VState → List String → VState
  | a, [] => a
  | a, r :: rest =>
    checkPatterns env
      (match env.compile r with
        | some _ => (a.1 && true, a.2)
        | none => (a.1 && false, a.2 ++ [.badRegex r])) rest


/-- The loop over the groups of a headers field: empty-group report, then
every pattern value compiled. -/
def checkHeaderSets (env : Env) : VState → List (List (String × String)) → VState
  | a, [] => a
  | a, hs :: rest =>
    checkHeaderSets env
      (checkPatterns env
        (if hs.isEmpty then (a.1 && false, a.2 ++ [.emptyHeadersInner]) else a)
        (hs.map (fun kv => kv.2))) rest

/-- The headers field check. -/
def testHeaders (env : Env) (s : VState)
    (hdrs : Option (List (List (String × String)))) : VState :=
  match hdrs with
  | none => s
  | some hv =>
    checkHeaderSets env
      (if hv.isEmpty then (s.1 && false, s.2 ++ [.emptyHeadersOuter]) else s) hv

/-- The loop over the groups of a body or raw field. -/
def checkGroupSets (env : Env) (emptyInner : Report) : VState → List (List String) → VState
  | a, [] => a
  | a, g :: rest =>
    checkGroupSets env emptyInner
      (checkPatterns env
        (if g.isEmpty then (a.1 && false, a.2 ++ [emptyInner]) else a) g) rest

/-- A body or raw field check.  Note: like the source, the patterns are
compiled with the TEXT regex compiler (`Regex::new`), for raw fields too. -/
def testGroups (env : Env) (emptyOuter emptyInner : Report) (s : VState)
    (groups : Option (List (List String))) : VState :=
  match groups with
  | none => s
  | some gv =>
    checkGroupSets env emptyInner
      (if gv.isEmpty then (s.1 && false, s.2 ++ [emptyOuter]) else s) gv

/-- All checks of one rule, in source order: actions, filter, headers, body,
raw. -/
def testRule (env : Env) (s : VState) (rule : Rule) : Except String VState :=
  match testActionsOpt env s rule.action with
  | .error e => .error e
  | .ok s1 =>
    match testFilter env s1 rule.filter with
    | .error e => .error e
    | .ok s2 =>
      .ok (testGroups env .emptyRawOuter .emptyRawInner
            (testGroups env .emptyBodyOuter .emptyBodyInner
              (testHeaders env s2 rule.headers) rule.body) rule.raw)

/-- The loop over all rules. -/
def testRules (env : Env) : VState → List Rule → Except String VState
  | s, [] => .ok s
  | s, rule :: rest =>
    match testRule env s rule with
    | .error e => .error e
    | .ok s2 => testRules env s2 rest

/-- `Config::test` instrumented with the report log, started from
`success = true` and an empty log. -/
def testR (env : Env) (config : Config) : Except String VState :=
  testRules env (true, []) config.rules

/-- `Config::test`: the boolean the source function returns. -/
def Config.test (env : Env) (config : Config) : Except String Bool :=
  (testR env config).map (fun s => s.1)

/-- The verdict of the which-probe when it does not panic. -/
def foundB (env : Env) (program : String) : Bool :=
  match Jobfound env program with
  | .ok f => f
  | .error _ => false

/-- Declarative form of one command check: non-empty and program found. -/
def actionOkB (env : Env) (action : List String) : Bool :=
  match action with
  | prog :: _ => foundB env prog
  | [] => false

/-- Declarative form of the optional action field check. -/
def actionsOptOkB (env : Env) : Option (List (List String)) → Bool
  | none => true
  | some xs => xs.all (fun a => actionOkB env a)

/-- Declarative form of the optional filter field check. -/
def filterOkB (env : Env) : Option (List String) → Bool
  | none => true
  | some f => actionOkB env f

/-- Declarative form of the headers field check. -/
def headersOkB (env : Env) : Option (List (List (String × String))) → Bool
  | none => true
  | some hv =>
    !hv.isEmpty &&
      hv.all (fun hs => !hs.isEmpty && hs.all (fun kv => (env.compile kv.2).isSome))

/-- Declarative form of a body or raw field check (text compilation). -/
def groupsOkB (env : Env) : Option (List (List String)) → Bool
  | none => true
  | some gv =>
    !gv.isEmpty && gv.all (fun g => !g.isEmpty && g.all (fun r => (env.compile r).isSome))

/-- Declarative form of all checks on one rule. -/
def ruleOkB (env : Env) (rule : Rule) : Bool :=
  actionsOptOkB env rule.action && filterOkB env rule.filter &&
  headersOkB env rule.headers && groupsOkB env rule.body && groupsOkB env rule.raw

/-- Declarative form of the whole validator verdict. -/
def checksBool (env : Env) (config : Config) : Bool :=
  config.rules.all (fun rule => ruleOkB env rule)

/-- Sanity invariant of the validator state: success still true exactly when
nothing has been reported. -/
def VOk (s : VState) : Prop :=
  s.1 = true ↔ s.2 = []

theorem checkPatterns_fst (env : Env) :
    ∀ (g : List String) (a : VState),
      (checkPatterns env a g).1 = (a.1 && g.all (fun r => (env.compile r).isSome)) := by
  intro g
  induction g with
  | nil => intro a; simp [checkPatterns]
  | cons r rest ih =>
    intro a
    rw [checkPatterns]
    cases hc : env.compile r
    · simp [ih, hc, Bool.and_assoc]
    · simp [ih, hc, Bool.and_assoc]

theorem checkPatterns_inv (env : Env) :
    ∀ (g : List String) (a : VState), VOk a → VOk (checkPatterns env a g) := by
  intro g
  induction g with
  | nil => intro a ha; simpa [checkPatterns] using ha
  | cons r rest ih =>
    intro a ha
    rw [checkPatterns]
    cases hc : env.compile r
    · refine ih _ ?_
      constructor
      · intro h
        simp at h
      · intro h
        simp at h
    · refine ih _ ?_
      constructor
      · intro h
        simp at h
        exact ha.mp h
      · intro h
        simp at h ⊢
        exact ha.mpr h

theorem vals_all_compile (env : Env) (hs : List (String × String)) :
    (hs.map (fun kv => kv.2)).all (fun r => (env.compile r).isSome) =
      hs.all (fun kv => (env.compile kv.2).isSome) := by
  induction hs with
  | nil => simp
  | cons kv rest ih => simp [ih]

theorem checkHeaderSets_fst (env : Env) :
    ∀ (hv : List (List (String × String))) (a : VState),
      (checkHeaderSets env a hv).1 =
        (a.1 && hv.all (fun hs => !hs.isEmpty &&
          hs.all (fun kv => (env.compile kv.2).isSome))) := by
  intro hv
  induction hv with
  | nil => intro a; simp [checkHeaderSets]
  | cons hs rest ih =>
    intro a
    rw [checkHeaderSets]
    rw [ih, checkPatterns_fst, vals_all_compile]
    cases hg : hs.isEmpty
    · simp [hg, Bool.and_assoc]
    · simp [hg, Bool.and_assoc]

theorem checkHeaderSets_inv (env : Env) :
    ∀ (hv : List (List (String × String))) (a : VState), VOk a →
      VOk (checkHeaderSets env a hv) := by
  intro hv
  induction hv with
  | nil => intro a ha; simpa [checkHeaderSets] using ha
  | cons hs rest ih =>
    intro a ha
    rw [checkHeaderSets]
    refine ih _ (checkPatterns_inv env _ _ ?_)
    cases hg : hs.isEmpty
    · simpa using ha
    · constructor
      · intro h
        simp at h
      · intro h
        simp at h

theorem testHeaders_fst (env : Env) (s : VState)
    (hdrs : Option (List (List (String × String)))) :
    (testHeaders env s hdrs).1 = (s.1 && headersOkB env hdrs) := by
  cases hdrs with
  | none => simp [testHeaders, headersOkB]
  | some hv =>
    rw [testHeaders, headersOkB]
    rw [checkHeaderSets_fst]
    cases hg : hv.isEmpty
    · simp [hg, Bool.and_assoc]
    · simp [hg, Bool.and_assoc]

theorem testHeaders_inv (env : Env) (s : VState)
    (hdrs : Option (List (List (String × String)))) (hvs : VOk s) :
    VOk (testHeaders env s hdrs) := by
  cases hdrs with
  | none => simpa [testHeaders] using hvs
  | some hv =>
    rw [testHeaders]
    refine checkHeaderSets_inv env _ _ ?_
    cases hg : hv.isEmpty
    · simpa using hvs
    · constructor
      · intro h
        simp at h
      · intro h
        simp at h

theorem checkGroupSets_fst (env : Env) (rep : Report) :
    ∀ (gv : List (List String)) (a : VState),
      (checkGroupSets env rep a gv).1 =
        (a.1 && gv.all (fun g => !g.isEmpty &&
          g.all (fun r => (env.compile r).isSome))) := by
  intro gv
  induction gv with
  | nil => intro a; simp [checkGroupSets]
  | cons g rest ih =>
    intro a
    rw [checkGroupSets]
    rw [ih, checkPatterns_fst]
    cases hg : g.isEmpty
    · simp [hg, Bool.and_assoc]
    · simp [hg, Bool.and_assoc]

theorem checkGroupSets_inv (env : Env) (rep : Report) :
    ∀ (gv : List (List String)) (a : VState), VOk a →
      VOk (checkGroupSets env rep a gv) := by
  intro gv
  induction gv with
  | nil => intro a ha; simpa [checkGroupSets] using ha
  | cons g rest ih =>
    intro a ha
    rw [checkGroupSets]
    refine ih _ (checkPatterns_inv env _ _ ?_)
    cases hg : g.isEmpty
    · simpa using ha
    · constructor
      · intro h
        simp at h
      · intro h
        simp at h

theorem testGroups_fst (env : Env) (ro ri : Report) (s : VState)
    (groups : Option (List (List String))) :
    (testGroups env ro ri s groups).1 = (s.1 && groupsOkB env groups) := by
  cases groups with
  | none => simp [testGroups, groupsOkB]
  | some gv =>
    rw [testGroups, groupsOkB]
    rw [checkGroupSets_fst]
    cases hg : gv.isEmpty
    · simp [hg, Bool.and_assoc]
    · simp [hg, Bool.and_assoc]

theorem testGroups_inv (env : Env) (ro ri : Report) (s : VState)
    (groups : Option (List (List String))) (hvs : VOk s) :
    VOk (testGroups env ro ri s groups) := by
  cases groups with
  | none => simpa [testGroups] using hvs
  | some gv =>
    rw [testGroups]
    refine checkGroupSets_inv env _ _ _ ?_
    cases hg : gv.isEmpty
    · simpa using hvs
    · constructor
      · intro h
        simp at h
      · intro h
        simp at h

theorem testAction_fst (env : Env) (s : VState) (action : List String) (s2 : VState)
    (h : testAction env s action = .ok s2) :
    s2.1 = (s.1 && actionOkB env action) := by
  cases action with
  | nil =>
    simp [testAction] at h
    rw [← h]
    simp [actionOkB]
  | cons prog rest =>
    rw [testAction] at h
    rcases hjf : Jobfound env prog with e | f
    · rw [hjf] at h
      simp at h
    · rw [hjf] at h
      simp only [Except.ok.injEq] at h
      rw [← h]
      simp [actionOkB, foundB, hjf]

theorem testAction_inv (env : Env) (s : VState) (action : List String) (s2 : VState)
    (h : testAction env s action = .ok s2) (hvs : VOk s) : VOk s2 := by
  cases action with
  | nil =>
    simp [testAction] at h
    rw [← h]
    constructor
    · intro h2
      simp at h2
    · intro h2
      simp at h2
  | cons prog rest =>
    rw [testAction] at h
    rcases hjf : Jobfound env prog with e | f
    · rw [hjf] at h
      simp at h
    · rw [hjf] at h
      simp only [Except.ok.injEq] at h
      rw [← h]
      cases f
      · constructor
        · intro h2
          simp at h2
        · intro h2
          simp at h2
      · constructor
        · intro h2
          simp at h2 ⊢
          exact hvs.mp h2
        · intro h2
          simp at h2 ⊢
          exact hvs.mpr h2

theorem testActions_fst (env : Env) :
    ∀ (actions : List (List String)) (s s2 : VState),
      testActions env s actions = .ok s2 →
      s2.1 = (s.1 && actions.all (fun a => actionOkB env a)) := by
  intro actions
  induction actions with
  | nil =>
    intro s s2 h
    simp [testActions] at h
    rw [← h]
    simp
  | cons action rest ih =>
    intro s s2 h
    rw [testActions] at h
    rcases ha : testAction env s action with e | sm
    · rw [ha] at h
      simp at h
    · rw [ha] at h
      rw [ih sm s2 h, testAction_fst env s action sm ha]
      simp [Bool.and_assoc]

theorem testActions_inv (env : Env) :
    ∀ (actions : List (List String)) (s s2 : VState),
      testActions env s actions = .ok s2 → VOk s → VOk s2 := by
  intro actions
  induction actions with
  | nil =>
    intro s s2 h hvs
    simp [testActions] at h
    rw [← h]
    exact hvs
  | cons action rest ih =>
    intro s s2 h hvs
    rw [testActions] at h
    rcases ha : testAction env s action with e | sm
    · rw [ha] at h
      simp at h
    · rw [ha] at h
      exact ih sm s2 h (testAction_inv env s action sm ha hvs)

theorem testActionsOpt_fst (env : Env) (s : VState)
    (actions : Option (List (List String))) (s2 : VState)
    (h : testActionsOpt env s actions = .ok s2) :
    s2.1 = (s.1 && actionsOptOkB env actions) := by
  cases actions with
  | none =>
    simp [testActionsOpt] at h
    rw [← h]
    simp [actionsOptOkB]
  | some xs =>
    rw [testActionsOpt] at h
    rw [actionsOptOkB]
    exact testActions_fst env xs s s2 h

theorem testActionsOpt_inv (env : Env) (s : VState)
    (actions : Option (List (List String))) (s2 : VState)
    (h : testActionsOpt env s actions = .ok s2) (hvs : VOk s) : VOk s2 := by
  cases actions with
  | none =>
    simp [testActionsOpt] at h
    rw [← h]
    exact hvs
  | some xs =>
    rw [testActionsOpt] at h
    exact testActions_inv env xs s s2 h hvs

theorem testFilter_fst (env : Env) (s : VState) (filter : Option (List String)) (s2 : VState)
    (h : testFilter env s filter = .ok s2) :
    s2.1 = (s.1 && filterOkB env filter) := by
  cases filter with
  | none =>
    simp [testFilter] at h
    rw [← h]
    simp [filterOkB]
  | some f =>
    cases f with
    | nil =>
      simp [testFilter] at h
      rw [← h]
      simp [filterOkB, actionOkB]
    | cons prog rest =>
      rw [testFilter] at h
      rcases hjf : Jobfound env prog with e | fd
      · rw [hjf] at h
        simp at h
      · rw [hjf] at h
        simp only [Except.ok.injEq] at h
        rw [← h]
        simp [filterOkB, actionOkB, foundB, hjf]

theorem testFilter_inv (env : Env) (s : VState) (filter : Option (List String)) (s2 : VState)
    (h : testFilter env s filter = .ok s2) (hvs : VOk s) : VOk s2 := by
  cases filter with
  | none =>
    simp [testFilter] at h
    rw [← h]
    exact hvs
  | some f =>
    cases f with
    | nil =>
      simp [testFilter] at h
      rw [← h]
      constructor
      · intro h2
        simp at h2
      · intro h2
        simp at h2
    | cons prog rest =>
      rw [testFilter] at h
      rcases hjf : Jobfound env prog with e | fd
      · rw [hjf] at h
        simp at h
      · rw [hjf] at h
        simp only [Except.ok.injEq] at h
        rw [← h]
        cases fd
        · constructor
          · intro h2
            simp at h2
          · intro h2
            simp at h2
        · constructor
          · intro h2
            simp at h2 ⊢
            exact hvs.mp h2
          · intro h2
            simp at h2 ⊢
            exact hvs.mpr h2

theorem testRule_fst (env : Env) (s : VState) (rule : Rule) (s2 : VState)
    (h : testRule env s rule = .ok s2) :
    s2.1 = (s.1 && ruleOkB env rule) := by
  rw [testRule] at h
  rcases ha : testActionsOpt env s rule.action with e | sa
  · rw [ha] at h
    simp at h
  · rw [ha] at h
    dsimp only at h
    rcases hf : testFilter env sa rule.filter with e | sf
    · rw [hf] at h
      simp at h
    · rw [hf] at h
      dsimp only at h
      simp only [Except.ok.injEq] at h
      rw [← h]
      rw [testGroups_fst, testGroups_fst, testHeaders_fst]
      rw [testFilter_fst env sa rule.filter sf hf]
      rw [testActionsOpt_fst env s rule.action sa ha]
      rw [ruleOkB]
      simp [Bool.and_assoc]

theorem testRule_inv (env : Env) (s : VState) (rule : Rule) (s2 : VState)
    (h : testRule env s rule = .ok s2) (hvs : VOk s) : VOk s2 := by
  rw [testRule] at h
  rcases ha : testActionsOpt env s rule.action with e | sa
  · rw [ha] at h
    simp at h
  · rw [ha] at h
    dsimp only at h
    rcases hf : testFilter env sa rule.filter with e | sf
    · rw [hf] at h
      simp at h
    · rw [hf] at h
      dsimp only at h
      simp only [Except.ok.injEq] at h
      rw [← h]
      exact testGroups_inv env _ _ _ _
        (testGroups_inv env _ _ _ _
          (testHeaders_inv env _ _
            (testFilter_inv env sa rule.filter sf hf
              (testActionsOpt_inv env s rule.action sa ha hvs))))

theorem testRules_fst (env : Env) :
    ∀ (rules : List Rule) (s s2 : VState),
      testRules env s rules = .ok s2 →
      s2.1 = (s.1 && rules.all (fun rule => ruleOkB env rule)) := by
  intro rules
  induction rules with
  | nil =>
    intro s s2 h
    simp [testRules] at h
    rw [← h]
    simp
  | cons rule rest ih =>
    intro s s2 h
    rw [testRules] at h
    rcases hr : testRule env s rule with e | sm
    · rw [hr] at h
      simp at h
    · rw [hr] at h
      rw [ih sm s2 h, testRule_fst env s rule sm hr]
      simp [Bool.and_assoc]

theorem testRules_inv (env : Env) :
    ∀ (rules : List Rule) (s s2 : VState),
      testRules env s rules = .ok s2 → VOk s → VOk s2 := by
  intro rules
  induction rules with
  | nil =>
    intro s s2 h hvs
    simp [testRules] at h
    rw [← h]
    exact hvs
  | cons rule rest ih =>
    intro s s2 h hvs
    rw [testRules] at h
    rcases hr : testRule env s rule with e | sm
    · rw [hr] at h
      simp at h
    · rw [hr] at h
      exact ih sm s2 h (testRule_inv env s rule sm hr hvs)

/-- C7: the validator accumulates all checks without short-circuiting.
When `Config::test` completes (the which-probes spawned), the boolean it
returns is the conjunction of every check on every rule (`checksBool`), and
it is true exactly when nothing was reported — every failing check appends
its report and later rules' checks still run and report after an earlier
failure. -/
theorem validator_accumulates (env : Env) (config : Config) (s : VState)
    (hok : testR env config = .ok s) :
    Config.test env config = .ok (checksBool env config) ∧
    s.1 = checksBool env config ∧
    (s.1 = true ↔ s.2 = []) := by
  have h1 : s.1 = checksBool env config := by
    have h0 := testRules_fst env config.rules (true, []) s hok
    simpa [checksBool] using h0
  have h2 : VOk s := by
    refine testRules_inv env config.rules (true, []) s hok ?_
    constructor
    · intro
      rfl
    · intro
      rfl
  have h3 : Config.test env config = .ok s.1 := by
    rw [Config.test, hok]
    rfl
  rw [h1] at h3
  exact ⟨h3, h1, h2⟩

/-- Environment for the validator witness: `which nosuch` exits 1, every
other spawn succeeds; the pattern "(" does not compile, everything else
does. -/
def wEnvVal : Env :=
  { spawn := fun cmd _ =>
      some { exitStatus := some (.exited (if cmd = ["which", "nosuch"] then 1 else 0))
             comm := some (some [], some []) }
    parseMail := fun _ => none
    compile := fun p => if p = "(" then none else some (fun _ => true)
    compileBytes := fun p => if p = "(" then none else some (fun _ => true) }

/-- A config with three distinct problems: an empty action command, an
unresolvable program name, and a pattern that does not compile. -/
def cCfgProblems : Config :=
  { version := 0
    rules := [{ headers := some [[("h", "(")]], body := none, raw := none,
                action := some [[], ["nosuch"]], filter := none }] }

/-- Witness for C7: on the three-problem config the validator returns false
and its run reported exactly the three problems. -/
theorem validator_accumulates_witness :
    Config.test wEnvVal cCfgProblems = .ok (checksBool wEnvVal cCfgProblems) ∧
    (false : Bool) = checksBool wEnvVal cCfgProblems ∧
    ((false : Bool) = true ↔
      ([Report.emptyActionRule, Report.notFound "nosuch", Report.badRegex "("] :
        List Report) = []) :=
  validator_accumulates wEnvVal cCfgProblems
    (false, [Report.emptyActionRule, Report.notFound "nosuch", Report.badRegex "("]) rfl

/-- C9 (amended): the validator checks raw patterns with the TEXT regex
compiler — the same `Regex::new` used for headers and body — not with the
byte compiler used for raw matching at match time: for a config whose only
predicate is one raw pattern, `Config::test` returns exactly the text
compilability of that pattern. -/
theorem raw_validator_text_compile (env : Env) (p : String) (v : Nat) :
    Config.test env
      { version := v
        rules := [{ headers := none, body := none, raw := some [[p]],
                    action := none, filter := none }] } =
      .ok (env.compile p).isSome := by
  cases hc : env.compile p with
  | none =>
    simp [Config.test, testR, testRules, testRule, testActionsOpt, testFilter,
      testHeaders, testGroups, checkGroupSets, checkPatterns, Except.map, hc]
  | some re =>
    simp [Config.test, testR, testRules, testRule, testActionsOpt, testFilter,
      testHeaders, testGroups, checkGroupSets, checkPatterns, Except.map, hc]

/-- Environment where no pattern compiles as a text regex but every pattern
compiles as a byte regex (matching everything) — the direction in which the
two real compilers actually differ. -/
def cEnvBytes : Env :=
  { spawn := fun _ _ => some { exitStatus := some (.exited 0), comm := some (some [], some []) }
    parseMail := fun _ => none
    compile := fun _ => none
    compileBytes := fun _ => some (fun _ => true) }

/-- A config whose only predicate is one raw pattern. -/
def cCfgRaw : Config :=
  { version := 0
    rules := [{ headers := none, body := none, raw := some [["["]],
                action := none, filter := none }] }

/-- Counterexample to C9 as stated: the raw pattern compiles as a byte
regex — match-time raw evaluation even succeeds on it — yet the validator
rejects it, because it compiles raw patterns with the text compiler. -/
theorem raw_validator_cex :
    Config.test cEnvBytes cCfgRaw = .ok false ∧
    (cEnvBytes.compileBytes "[").isSome = true ∧
    rawSetMatch cEnvBytes [7] ["["] = true := by
  exact ⟨rfl, rfl, rfl⟩
